import Mathlib

/-! # Verification of the SEC-filings extraction core

A shallow embedding, in Lean 4, of the core algorithms of the
`filingsResearch` package (`sec_filings.py`, `get_company_cik.py`):

* the retry/backoff wrapper (`retry_with_backoff`, `should_retry_request`);
* the document-resolver priority cascade inside `extract_filing_text`
  (the `file_priorities` list and its first-match selection loop);
* the chunking logic of `summarize_filing`;
* the tiered filing locator `find_filings` (feed entries, regex
  reconstruction via `SimpleEntry`, table-row scan, raw link scan);
* the CIK resolver `find_cik`;
* the exception-routing skeleton of `extract_filing_text`.

Python strings are embedded as `List Char`; Python `str.strip`,
`str.lower`, slicing, `in` (substring containment) and the few concrete
regular expressions used by the source are given explicit executable
definitions below.  Network and BeautifulSoup parsing effects are
inputs: each embedded function receives the parse-tree queries the
Python code performs (the found rows, entries, links, pre blocks, the
raw response text) as explicit data, and returns the value the Python
code would return.  Exceptions are modelled with `Except`.
-/

/-! ## Python string primitives -/

/-- Python whitespace for `str.strip` / `\s` (ASCII subset:
space, tab, newline, carriage return, vertical tab, form feed). -/
def isPySpace (c : Char) : Bool :=
  c == ' ' || c == '\t' || c == '\n' || c == '\r' || c == '\u000B' || c == '\u000C'

/-- Python `str.strip()`: drop leading and trailing whitespace. -/
def pyStrip (l : List Char) : List Char :=
  ((l.dropWhile isPySpace).reverse.dropWhile isPySpace).reverse

/-- Python `str.lower()` (ASCII case folding). -/
def pyLower (l : List Char) : List Char := l.map Char.toLower

/-- The `cell.text.strip().lower()` normalisation used by every
predicate in `file_priorities`. -/
def pyNorm (l : List Char) : List Char := pyLower (pyStrip l)

/-- Python `pat in hay` (substring containment). -/
def containsSub (hay pat : List Char) : Bool :=
  match hay with
  | [] => pat.isEmpty
  | _ :: rest => pat.isPrefixOf hay || containsSub rest pat

/-- Split `(before, after)` around the first occurrence of `pat`
(`after` starts past the occurrence); `none` if `pat` does not occur. -/
def splitAtFirst (pat : List Char) : List Char → Option (List Char × List Char)
  | [] => if pat.isEmpty then some ([], []) else none
  | c :: rest =>
    if pat.isPrefixOf (c :: rest) then some ([], (c :: rest).drop pat.length)
    else
      match splitAtFirst pat rest with
      | some (pre, post) => some (c :: pre, post)
      | none => none

/-- All start positions at which `pat` occurs in `text` (ascending). -/
def patPositions (pat text : List Char) : List Nat :=
  (List.range (text.length + 1)).filter (fun i => pat.isPrefixOf (text.drop i))

/-- Python `str.split('\n')`: keeps empty pieces, `"" ↦ [""]`. -/
def splitNl : List Char → List (List Char)
  | [] => [[]]
  | c :: rest =>
    if c = '\n' then [] :: splitNl rest
    else
      match splitNl rest with
      | l :: ls => (c :: l) :: ls
      | [] => [[c]]

/-! ## Chunker (`summarize_filing`, sec_filings.py lines 1322-1348)

The source first calls `extract_filing_text`; the chunking logic is a
pure function of the extracted text, which is the parameter `T` here.
`max_chunk_size` must be positive (the source divides by it). -/

/-- Chunk total: `total_chunks = (total_length + max_chunk_size - 1) // max_chunk_size`. -/
def totalChunks (T : List Char) (maxChunkSize : Nat) : Nat :=
  (T.length + maxChunkSize - 1) / maxChunkSize

/-- The `chunk_index = -1` metadata string:
`f"Filing has {total_chunks} chunks. Use chunk_index=0 to {total_chunks-1} to retrieve specific chunks."`. -/
def chunkCountMsg (total : Nat) : List Char :=
  "Filing has ".data ++ (toString total).data
    ++ " chunks. Use chunk_index=0 to ".data ++ (toString ((total : Int) - 1)).data
    ++ " to retrieve specific chunks.".data

/-- The out-of-range message:
`f"Invalid chunk_index. Filing has {total_chunks} chunks. Use chunk_index=0 to {total_chunks-1}."`. -/
def invalidChunkMsg (total : Nat) : List Char :=
  "Invalid chunk_index. Filing has ".data ++ (toString total).data
    ++ " chunks. Use chunk_index=0 to ".data ++ (toString ((total : Int) - 1)).data
    ++ ".".data

/-- The chunk marker `f"[Chunk {chunk_index+1} of {total_chunks}] "`. -/
def chunkMarker (chunkIndex : Int) (total : Nat) : List Char :=
  "[Chunk ".data ++ (toString (chunkIndex + 1)).data ++ " of ".data
    ++ (toString total).data ++ "] ".data

/-- Chunk handling of `summarize_filing`: `-1` reports metadata, an
index outside `[0, total_chunks)` yields the invalid-index message (a
returned value, not an exception), and an in-range index returns the
marker followed by `filing_text[start_pos:end_pos]` with
`start_pos = chunk_index * max_chunk_size` and
`end_pos = min(start_pos + max_chunk_size, total_length)`. -/
def summarize_filing (T : List Char) (chunkIndex : Int) (maxChunkSize : Nat) : List Char :=
  let total := totalChunks T maxChunkSize
  if chunkIndex = -1 then chunkCountMsg total
  else if chunkIndex < 0 ∨ (total : Int) ≤ chunkIndex then invalidChunkMsg total
  else
    let start := chunkIndex.toNat * maxChunkSize
    chunkMarker chunkIndex total
      ++ (T.take (min (start + maxChunkSize) T.length)).drop start

/-- Modelled from the spec: the claimed chunk total
`ceil(len(text)/max_size)` with "a minimum of 1 even for empty text". -/
def specTotalChunks (T : List Char) (maxChunkSize : Nat) : Nat :=
  max 1 ((T.length + maxChunkSize - 1) / maxChunkSize)

/-! ## Document Resolver cascade (`extract_filing_text`, lines 598-668)

A row of the index page's file table is its list of `<td>` cells; each
cell carries its text and the `href` of its first `<a>` tag (if any).
The selection loop scans the `file_priorities` list top-to-bottom and,
for each priority, the rows in order, picking the first cell (always
`cells[2]`) that satisfies the predicate and contains a link. -/

structure Cell where
  text : List Char
  href : Option (List Char)
deriving DecidableEq

structure Row where
  cells : List Cell
deriving DecidableEq

/-- Regex `.*\.htm$` (with `.` not matching a newline, as in Python
without `re.DOTALL`): some split `mid ++ ".htm"` with no newline in
`mid` reaches the end of the string. -/
def dotStarDotHtm : List Char → Bool
  | ['.', 'h', 't', 'm'] => true
  | c :: rest => c != '\n' && dotStarDotHtm rest
  | [] => false

/-- Regex `^aapl-10-?k.*\.htm$` as a full match. -/
def aapl10kCore : List Char → Bool
  | 'a' :: 'a' :: 'p' :: 'l' :: '-' :: '1' :: '0' :: '-' :: 'k' :: mid => dotStarDotHtm mid
  | 'a' :: 'a' :: 'p' :: 'l' :: '-' :: '1' :: '0' :: 'k' :: mid => dotStarDotHtm mid
  | _ => false

/-- Regex `^aapl-20\d{2}\.htm$` as a full match: 13 characters,
`aapl-20`, two digits, `.htm`. -/
def aaplYearCore : List Char → Bool
  | [a1, a2, a3, a4, a5, a6, a7, d1, d2, s1, s2, s3, s4] =>
    a1 == 'a' && a2 == 'a' && a3 == 'p' && a4 == 'l' && a5 == '-' && a6 == '2' && a7 == '0'
      && d1.isDigit && d2.isDigit && s1 == '.' && s2 == 'h' && s3 == 't' && s4 == 'm'
  | _ => false

/-- Regex `(0[1-9]|1[0-2])` on two month characters. -/
def monthOk (m1 m2 : Char) : Bool :=
  (m1 == '0' && m2.isDigit && m2 != '0') || (m1 == '1' && (m2 == '0' || m2 == '1' || m2 == '2'))

/-- Regex `(0[1-9]|[12]\d|3[01])` on two day characters. -/
def dayOk (d1 d2 : Char) : Bool :=
  (d1 == '0' && d2.isDigit && d2 != '0') || ((d1 == '1' || d1 == '2') && d2.isDigit)
    || (d1 == '3' && (d2 == '0' || d2 == '1'))

/-- Regex `^aapl-20\d{2}(0[1-9]|1[0-2])(0[1-9]|[12]\d|3[01])\.htm$` as a
full match: 17 characters, `aapl-20`, two year digits, a month, a day,
`.htm`. -/
def aaplDateCore : List Char → Bool
  | [a1, a2, a3, a4, a5, a6, a7, y1, y2, m1, m2, d1, d2, s1, s2, s3, s4] =>
    a1 == 'a' && a2 == 'a' && a3 == 'p' && a4 == 'l' && a5 == '-' && a6 == '2' && a7 == '0'
      && y1.isDigit && y2.isDigit && monthOk m1 m2 && dayOk d1 d2
      && s1 == '.' && s2 == 'h' && s3 == 't' && s4 == 'm'
  | _ => false

/-- Regex `^10-?k20\d{2}\.htm$` as a full match: `10-k20` or `10k20`,
two digits, `.htm`. -/
def tenK20Core : List Char → Bool
  | [a1, a2, a3, a4, a5, a6, d1, d2, s1, s2, s3, s4] =>
    a1 == '1' && a2 == '0' && a3 == '-' && a4 == 'k' && a5 == '2' && a6 == '0'
      && d1.isDigit && d2.isDigit && s1 == '.' && s2 == 'h' && s3 == 't' && s4 == 'm'
  | [a1, a2, a3, a4, a5, d1, d2, s1, s2, s3, s4] =>
    a1 == '1' && a2 == '0' && a3 == 'k' && a4 == '2' && a5 == '0'
      && d1.isDigit && d2.isDigit && s1 == '.' && s2 == 'h' && s3 == 't' && s4 == 'm'
  | _ => false

/-- Suffix test `cell.text.strip().lower().endswith(pat)`. -/
def normEndsWith (s pat : List Char) : Bool := pat.isSuffixOf (pyNorm s)

def pri0 (s : List Char) : Bool := pyNorm s == "10-k".data && normEndsWith s ".htm".data

def pri1 (s : List Char) : Bool := pyNorm s == "form 10-k".data && normEndsWith s ".htm".data

def pri2 (s : List Char) : Bool := aapl10kCore (pyNorm s)

def pri3 (s : List Char) : Bool := aaplYearCore (pyNorm s)

def pri4 (s : List Char) : Bool := aaplDateCore (pyNorm s)

def pri5 (s : List Char) : Bool := pyNorm s == "10-k.htm".data || pyNorm s == "10k.htm".data

def pri6 (s : List Char) : Bool := pyNorm s == "form10-k.htm".data || pyNorm s == "form10k.htm".data

def pri7 (s : List Char) : Bool := tenK20Core (pyNorm s)

def pri8 (s : List Char) : Bool :=
  containsSub (pyNorm s) "10-k".data && !containsSub (pyNorm s) "exhibit".data
    && !containsSub (pyNorm s) "complete submission".data && normEndsWith s ".htm".data

def pri9 (s : List Char) : Bool :=
  containsSub (pyNorm s) "annual report".data && !containsSub (pyNorm s) "exhibit".data
    && normEndsWith s ".htm".data

def pri10 (s : List Char) : Bool :=
  containsSub (pyNorm s) "form 10-k".data && !containsSub (pyNorm s) "exhibit".data
    && normEndsWith s ".htm".data

def pri11 (s : List Char) : Bool :=
  containsSub (pyNorm s) "10-k".data && containsSub (pyNorm s) "form".data
    && !containsSub (pyNorm s) "exhibit".data && normEndsWith s ".htm".data

def pri12 (s : List Char) : Bool :=
  containsSub (pyNorm s) "annual".data && containsSub (pyNorm s) "report".data
    && !containsSub (pyNorm s) "exhibit".data && normEndsWith s ".htm".data

def pri13 (s : List Char) : Bool :=
  containsSub (pyNorm s) "10-k".data && containsSub (pyNorm s) "complete submission".data

def pri14 (s : List Char) : Bool :=
  normEndsWith s ".htm".data && !normEndsWith s ".html".data
    && !containsSub (pyNorm s) "exhibit".data

def pri15 (s : List Char) : Bool :=
  containsSub (pyNorm s) "document".data && !containsSub (pyNorm s) "exhibit".data
    && normEndsWith s ".htm".data

def pri16 (s : List Char) : Bool := normEndsWith s ".htm".data && !containsSub (pyNorm s) "exhibit".data

def pri17 (s : List Char) : Bool := normEndsWith s ".htm".data

def pri18 (s : List Char) : Bool := normEndsWith s ".html".data

def pri19 (_ : List Char) : Bool := true

/-- The `file_priorities` list of `extract_filing_text`, in source order. -/
def filePriorities : List (List Char → Bool) :=
  [pri0, pri1, pri2, pri3, pri4, pri5, pri6, pri7, pri8, pri9, pri10,
   pri11, pri12, pri13, pri14, pri15, pri16, pri17, pri18, pri19]

def priAt (j : Nat) : List Char → Bool := filePriorities.getD j (fun _ => false)

/-- One row under one priority: the source requires `len(cells) >= 3`,
tests `priority_check(cells[2])`, and takes the link only if `cells[2]`
has an `<a>` tag with an `href` attribute (otherwise the row is passed
over without stopping the scan). -/
def rowHit (p : List Char → Bool) (r : Row) : Option Cell :=
  match r.cells.get? 2 with
  | some c => if p c.text then (match c.href with | some _ => some c | none => none) else none
  | none => none

/-- The inner `for row in rows` loop for one priority. -/
def findHit (p : List Char → Bool) (rows : List Row) : Option Cell :=
  rows.findSome? (rowHit p)

/-- Python truthiness of `document_link` (`None` and `""` are falsy),
checked at the top of the outer loop. -/
def hitTruthy : Option (Nat × Cell) → Bool
  | none => false
  | some (_, c) => match c.href with | some h => !h.isEmpty | none => false

/-- The outer `for priority_check in file_priorities` loop.  The
accumulator records the stage index and matched cell of the last
assignment to `document_link`. -/
def cascadeLoop (rows : List Row) : Nat → List (List Char → Bool) →
    Option (Nat × Cell) → Option (Nat × Cell)
  | _, [], acc => acc
  | i, p :: ps, acc =>
    if hitTruthy acc then acc
    else
      match findHit p rows with
      | some c => cascadeLoop rows (i + 1) ps (some (i, c))
      | none => cascadeLoop rows (i + 1) ps acc

/-- The document-link selection of `extract_filing_text` over the file
table's rows: stage index and matched cell. -/
def selectDocument (rows : List Row) : Option (Nat × Cell) :=
  cascadeLoop rows 0 filePriorities none

/-- Just the selected `document_link`. -/
def selectDocumentLink (rows : List Row) : Option (List Char) :=
  (selectDocument rows).bind (fun ic => ic.2.href)

/-- A tier-1 row in the claim's sense: `cells[2]` exists, its
normalised text is exactly the category code with an `.htm` extension,
and it carries a nonempty link. -/
def tier1Row (r : Row) : Bool :=
  match r.cells.get? 2 with
  | some c => pyNorm c.text == "10-k.htm".data
      && (match c.href with | some h => !h.isEmpty | none => false)
  | none => false

/-- Cell text that matches the "any non-exhibit `.htm`" tier and no
earlier priority (a row that is *merely* a tier-6 match). -/
def mereTier6Cell (s : List Char) : Bool :=
  !pri0 s && !pri1 s && !pri2 s && !pri3 s && !pri4 s && !pri5 s && !pri6 s
    && !pri7 s && !pri8 s && !pri9 s && !pri10 s && !pri11 s && !pri12 s && !pri13 s
    && pri14 s

def mereTier6Row (r : Row) : Bool :=
  match r.cells.get? 2 with
  | some c => c.href.isSome && mereTier6Cell c.text
  | none => false

/-- A row the selection loop can never take a link from: no third cell,
or no `<a href>` in the third cell. -/
def unqualifiedRow (r : Row) : Bool :=
  match r.cells.get? 2 with
  | some c => c.href.isNone
  | none => true

/-! ### Cascade lemmas -/

theorem rowHit_none_of_unqualified {p : List Char → Bool} {r : Row}
    (h : unqualifiedRow r = true) : rowHit p r = none := by
  unfold unqualifiedRow at h
  cases h2 : r.cells.get? 2 with
  | none => simp only [rowHit, h2]
  | some c =>
    rw [h2] at h
    have h' : c.href.isNone = true := h
    cases hh : c.href with
    | none =>
      by_cases hp : p c.text = true
      · simp only [rowHit, h2, hp, hh]
        simp
      · rw [Bool.not_eq_true] at hp
        simp only [rowHit, h2, hp]
        simp
    | some v => rw [hh] at h'; simp at h'

theorem rowHit_none_of_false {p : List Char → Bool} {r : Row} {c : Cell}
    (h2 : r.cells.get? 2 = some c) (hp : p c.text = false) : rowHit p r = none := by
  simp only [rowHit, h2, hp]
  simp

theorem rowHit_some_of_true {p : List Char → Bool} {r : Row} {c : Cell} {v : List Char}
    (h2 : r.cells.get? 2 = some c) (hp : p c.text = true) (hh : c.href = some v) :
    rowHit p r = some c := by
  simp only [rowHit, h2, hp, hh]
  simp

theorem rowHit_some {p : List Char → Bool} {r : Row} {c : Cell}
    (h : rowHit p r = some c) : p c.text = true ∧ c.href.isSome = true := by
  unfold rowHit at h
  cases h2 : r.cells.get? 2 with
  | none => rw [h2] at h; simp at h
  | some c0 =>
    rw [h2] at h
    by_cases hp : p c0.text
    · have h3 : (match c0.href with | some _ => some c0 | none => (none : Option Cell)) = some c := by
        simpa [hp] using h
      cases hh : c0.href with
      | none => rw [hh] at h3; simp at h3
      | some v =>
        rw [hh] at h3
        cases h3
        exact ⟨hp, by rw [hh]; rfl⟩
    · rw [Bool.not_eq_true] at hp
      simp [hp] at h

theorem findHit_some {p : List Char → Bool} {rows : List Row} {c : Cell}
    (h : findHit p rows = some c) : p c.text = true ∧ c.href.isSome = true := by
  induction rows with
  | nil => simp [findHit] at h
  | cons r rest ih =>
    rw [findHit, List.findSome?_cons] at h
    cases hr : rowHit p r with
    | some c0 => rw [hr] at h; cases h; exact rowHit_some hr
    | none => rw [hr] at h; exact ih h

theorem findHit_none {p : List Char → Bool} {rows : List Row}
    (h : ∀ r ∈ rows, rowHit p r = none) : findHit p rows = none := by
  unfold findHit
  exact List.findSome?_eq_none_iff.mpr h

theorem cascadeLoop_skip {rows : List Row} {i : Nat} {p : List Char → Bool}
    {ps : List (List Char → Bool)} {acc : Option (Nat × Cell)}
    (hacc : hitTruthy acc = false) (hf : findHit p rows = none) :
    cascadeLoop rows i (p :: ps) acc = cascadeLoop rows (i + 1) ps acc := by
  simp [cascadeLoop, hacc, hf]

theorem cascadeLoop_hit {rows : List Row} {i : Nat} {p : List Char → Bool}
    {ps : List (List Char → Bool)} {acc : Option (Nat × Cell)} {c : Cell}
    (hacc : hitTruthy acc = false) (hf : findHit p rows = some c) :
    cascadeLoop rows i (p :: ps) acc = cascadeLoop rows (i + 1) ps (some (i, c)) := by
  simp [cascadeLoop, hacc, hf]

theorem cascadeLoop_stop {rows : List Row} {i : Nat} {ps : List (List Char → Bool)}
    {acc : Option (Nat × Cell)} (hacc : hitTruthy acc = true) :
    cascadeLoop rows i ps acc = acc := by
  cases ps <;> simp [cascadeLoop, hacc]

theorem cascadeLoop_sound (rows : List Row) (Q : Nat → Cell → Prop)
    (ps : List (List Char → Bool)) :
    ∀ (i : Nat) (acc : Option (Nat × Cell)),
      (∀ j c, acc = some (j, c) → Q j c) →
      (∀ k c, findHit (ps.getD k (fun _ => false)) rows = some c → Q (i + k) c) →
      ∀ j c, cascadeLoop rows i ps acc = some (j, c) → Q j c := by
  induction ps with
  | nil =>
    intro i acc hacc _ j c h
    exact hacc j c h
  | cons p ps ih =>
    intro i acc hacc hst j c h
    by_cases ht : hitTruthy acc
    · rw [cascadeLoop_stop ht] at h
      exact hacc j c h
    · rw [Bool.not_eq_true] at ht
      cases hf : findHit p rows with
      | some c0 =>
        rw [cascadeLoop_hit ht hf] at h
        refine ih (i + 1) (some (i, c0)) ?_ ?_ j c h
        · intro j' c' he
          injection he with he1
          injection he1 with hj hc
          subst hj; subst hc
          have := hst 0 c0 (by simpa using hf)
          simpa using this
        · intro k c' hfk
          have := hst (k + 1) c' (by simpa using hfk)
          have harith : i + (k + 1) = i + 1 + k := by omega
          rwa [harith] at this
      | none =>
        rw [cascadeLoop_skip ht hf] at h
        refine ih (i + 1) acc hacc ?_ j c h
        intro k c' hfk
        have := hst (k + 1) c' (by simpa using hfk)
        have harith : i + (k + 1) = i + 1 + k := by omega
        rwa [harith] at this

theorem mereTier6Cell_parts {s : List Char} (h : mereTier6Cell s = true) :
    pri0 s = false ∧ pri1 s = false ∧ pri2 s = false ∧ pri3 s = false
      ∧ pri4 s = false ∧ pri5 s = false := by
  simp only [mereTier6Cell, Bool.and_eq_true, Bool.not_eq_true'] at h
  obtain ⟨⟨⟨⟨⟨⟨⟨⟨⟨⟨⟨⟨⟨⟨h0, h1⟩, h2⟩, h3⟩, h4⟩, h5⟩, _⟩, _⟩, _⟩, _⟩, _⟩, _⟩, _⟩, _⟩, _⟩ := h
  exact ⟨h0, h1, h2, h3, h4, h5⟩

theorem mereTier6Row_parts {r : Row} (h : mereTier6Row r = true) :
    ∃ c, r.cells.get? 2 = some c ∧ c.href.isSome = true ∧ mereTier6Cell c.text = true := by
  unfold mereTier6Row at h
  cases h2 : r.cells.get? 2 with
  | none => rw [h2] at h; simp at h
  | some c =>
    rw [h2] at h
    have h' : (c.href.isSome && mereTier6Cell c.text) = true := h
    rw [Bool.and_eq_true] at h'
    exact ⟨c, rfl, h'.1, h'.2⟩

theorem tier1Row_parts {r : Row} (h : tier1Row r = true) :
    ∃ c, r.cells.get? 2 = some c ∧ pyNorm c.text = "10-k.htm".data ∧ c.href.isSome = true := by
  unfold tier1Row at h
  cases h2 : r.cells.get? 2 with
  | none => rw [h2] at h; simp at h
  | some c =>
    rw [h2] at h
    have h' : ((pyNorm c.text == "10-k.htm".data)
        && (match c.href with | some v => !v.isEmpty | none => false)) = true := h
    rw [Bool.and_eq_true] at h'
    refine ⟨c, rfl, by simpa using h'.1, ?_⟩
    cases hh : c.href with
    | none => rw [hh] at h'; simp at h'
    | some v => rfl

theorem tier1Text_pris {s : List Char} (h : pyNorm s = "10-k.htm".data) :
    pri0 s = false ∧ pri1 s = false ∧ pri2 s = false ∧ pri3 s = false
      ∧ pri4 s = false ∧ pri5 s = true := by
  simp only [pri0, pri1, pri2, pri3, pri4, pri5, normEndsWith, h]
  decide


/-- C1: for an index page whose file table contains a row whose
type/filename cell is the exact category code with an HTML extension
("10-k.htm", tier 1 of the spec's cascade) together with rows that are
merely non-exhibit `.htm` matches (tier 6) or rows the selection loop
cannot use, the document-link selection of `extract_filing_text` picks
the (first) tier-1 row's link: the priority predicates are evaluated
top-to-bottom and the first match wins, and the exact-category row
matches at a strictly earlier priority than any merely-tier-6 row. -/
theorem cascade_tier1_first (pre post : List Row) (r : Row) (c : Cell) (v : List Char)
    (hc : r.cells.get? 2 = some c) (hnorm : pyNorm c.text = "10-k.htm".data)
    (hv : c.href = some v) (hne : v ≠ [])
    (hpre : ∀ r2 ∈ pre, mereTier6Row r2 = true ∨ unqualifiedRow r2 = true)
    (hpost : ∀ r2 ∈ post, tier1Row r2 = true ∨ mereTier6Row r2 = true ∨ unqualifiedRow r2 = true)
    (_hsix : ∃ r6 ∈ pre ++ r :: post, mereTier6Row r6 = true) :
    selectDocumentLink (pre ++ r :: post) = some v := by
  have hpreNone : ∀ p : List Char → Bool,
      (∀ s, mereTier6Cell s = true → p s = false) →
      ∀ r2 ∈ pre, rowHit p r2 = none := by
    intro p hm r2 hmem
    rcases hpre r2 hmem with h1 | h1
    · obtain ⟨c2, hc2, _, hcell⟩ := mereTier6Row_parts h1
      exact rowHit_none_of_false hc2 (hm _ hcell)
    · exact rowHit_none_of_unqualified h1
  have hrowNone : ∀ p : List Char → Bool,
      (∀ s, mereTier6Cell s = true → p s = false) →
      (∀ s, pyNorm s = "10-k.htm".data → p s = false) →
      ∀ r2 ∈ pre ++ r :: post, rowHit p r2 = none := by
    intro p hm ht r2 hr2
    rcases List.mem_append.mp hr2 with hmem | hmem
    · exact hpreNone p hm r2 hmem
    · rcases List.mem_cons.mp hmem with rfl | hmem2
      · exact rowHit_none_of_false hc (ht _ hnorm)
      · rcases hpost r2 hmem2 with h1 | h1 | h1
        · obtain ⟨c2, hc2, hn2, _⟩ := tier1Row_parts h1
          exact rowHit_none_of_false hc2 (ht _ hn2)
        · obtain ⟨c2, hc2, _, hcell⟩ := mereTier6Row_parts h1
          exact rowHit_none_of_false hc2 (hm _ hcell)
        · exact rowHit_none_of_unqualified h1
  have h0 : findHit pri0 (pre ++ r :: post) = none :=
    findHit_none (hrowNone pri0 (fun _ hs => (mereTier6Cell_parts hs).1)
      (fun _ hs => (tier1Text_pris hs).1))
  have h1 : findHit pri1 (pre ++ r :: post) = none :=
    findHit_none (hrowNone pri1 (fun _ hs => (mereTier6Cell_parts hs).2.1)
      (fun _ hs => (tier1Text_pris hs).2.1))
  have h2 : findHit pri2 (pre ++ r :: post) = none :=
    findHit_none (hrowNone pri2 (fun _ hs => (mereTier6Cell_parts hs).2.2.1)
      (fun _ hs => (tier1Text_pris hs).2.2.1))
  have h3 : findHit pri3 (pre ++ r :: post) = none :=
    findHit_none (hrowNone pri3 (fun _ hs => (mereTier6Cell_parts hs).2.2.2.1)
      (fun _ hs => (tier1Text_pris hs).2.2.2.1))
  have h4 : findHit pri4 (pre ++ r :: post) = none :=
    findHit_none (hrowNone pri4 (fun _ hs => (mereTier6Cell_parts hs).2.2.2.2.1)
      (fun _ hs => (tier1Text_pris hs).2.2.2.2.1))
  have h5 : findHit pri5 (pre ++ r :: post) = some c := by
    unfold findHit
    rw [List.findSome?_append]
    have hpre5 : List.findSome? (rowHit pri5) pre = none :=
      List.findSome?_eq_none_iff.mpr
        (hpreNone pri5 (fun _ hs => (mereTier6Cell_parts hs).2.2.2.2.2))
    rw [hpre5, Option.none_or, List.findSome?_cons,
      rowHit_some_of_true hc (tier1Text_pris hnorm).2.2.2.2.2 hv]
  have hT : hitTruthy (some (5, c)) = true := by
    simp [hitTruthy, hv, hne]
  show selectDocumentLink (pre ++ r :: post) = some v
  unfold selectDocumentLink selectDocument filePriorities
  have hF : hitTruthy none = false := rfl
  rw [cascadeLoop_skip hF h0, cascadeLoop_skip hF h1, cascadeLoop_skip hF h2,
    cascadeLoop_skip hF h3, cascadeLoop_skip hF h4, cascadeLoop_hit hF h5,
    cascadeLoop_stop hT]
  simp [hv]

def tier1WitnessCell : Cell :=
  { text := "10-k.htm".data, href := some "10-k.htm".data }

def tier1WitnessRow : Row :=
  { cells := [{ text := "10-K".data, href := none },
              { text := "Annual Report".data, href := none },
              tier1WitnessCell] }

def tier6WitnessRow : Row :=
  { cells := [{ text := "EX-99".data, href := none },
              { text := "Press Release".data, href := none },
              { text := "other.htm".data, href := some "other.htm".data }] }

/-- C1 witness: on a concrete two-row table, a merely-tier-6 row first,
the exact-category row's link is selected. -/
theorem cascade_tier1_first_witness :
    selectDocumentLink [tier6WitnessRow, tier1WitnessRow] = some "10-k.htm".data :=
  cascade_tier1_first [tier6WitnessRow] [] tier1WitnessRow tier1WitnessCell "10-k.htm".data
    (by decide) (by decide) (by decide) (by decide)
    (by decide) (by decide) ⟨tier6WitnessRow, by decide, by decide⟩


/-! ### Exhibit exclusion (C4) -/

theorem containsSub_false_of_notMem (a : Char) (rest : List Char) :
    ∀ (t : List Char), a ∉ t → containsSub t (a :: rest) = false
  | [], _ => rfl
  | c :: t', h => by
    have hac : (a == c) = false := by
      rw [beq_eq_false_iff_ne]
      intro heq
      exact h (heq ▸ List.mem_cons_self c t')
    have ih := containsSub_false_of_notMem a rest t' (fun hm => h (List.mem_cons_of_mem _ hm))
    simp [containsSub, List.isPrefixOf, hac, ih]

theorem aaplYearCore_no_exhibit {t : List Char} (ha : aaplYearCore t = true) :
    containsSub t "exhibit".data = false := by
  unfold aaplYearCore at ha
  split at ha
  next a1 a2 a3 a4 a5 a6 a7 d1 d2 s1 s2 s3 s4 =>
    simp only [Bool.and_eq_true, beq_iff_eq] at ha
    obtain ⟨⟨⟨⟨⟨⟨⟨⟨⟨⟨⟨⟨h1, h2⟩, h3⟩, h4⟩, h5⟩, h6⟩, h7⟩, hd1⟩, hd2⟩, h8⟩, h9⟩, h10⟩, h11⟩ := ha
    subst h1; subst h2; subst h3; subst h4; subst h5; subst h6; subst h7
    subst h8; subst h9; subst h10; subst h11
    refine containsSub_false_of_notMem _ _ _ ?_
    intro hm
    simp only [List.mem_cons, List.not_mem_nil, or_false] at hm
    rcases hm with hm|hm|hm|hm|hm|hm|hm|hm|hm|hm|hm|hm|hm
    all_goals first
      | exact absurd hm (by decide)
      | (rw [← hm] at hd1; exact absurd hd1 (by decide))
      | (rw [← hm] at hd2; exact absurd hd2 (by decide))
  next => exact absurd ha (by simp)

theorem monthOk_parts {m1 m2 : Char} (h : monthOk m1 m2 = true) :
    (m1 = '0' ∨ m1 = '1') ∧ m2.isDigit = true := by
  simp only [monthOk, Bool.or_eq_true, Bool.and_eq_true, beq_iff_eq] at h
  rcases h with ⟨⟨h1, h2⟩, -⟩ | ⟨h1, h2⟩
  · exact ⟨Or.inl h1, h2⟩
  · have hm2 : m2 = '0' ∨ m2 = '1' ∨ m2 = '2' := by tauto
    rcases hm2 with h2'|h2'|h2' <;> subst h2' <;> exact ⟨Or.inr h1, by decide⟩

theorem dayOk_parts {d1 d2 : Char} (h : dayOk d1 d2 = true) :
    (d1 = '0' ∨ d1 = '1' ∨ d1 = '2' ∨ d1 = '3') ∧ d2.isDigit = true := by
  simp only [dayOk, Bool.or_eq_true, Bool.and_eq_true, beq_iff_eq] at h
  rcases h with (⟨⟨h1, h2⟩, -⟩ | ⟨h1, h2⟩) | ⟨h1, h2⟩
  · exact ⟨Or.inl h1, h2⟩
  · rcases h1 with h1|h1
    · exact ⟨Or.inr (Or.inl h1), h2⟩
    · exact ⟨Or.inr (Or.inr (Or.inl h1)), h2⟩
  · have hd2 : d2 = '0' ∨ d2 = '1' := by tauto
    rcases hd2 with h2'|h2' <;> subst h2' <;> exact ⟨Or.inr (Or.inr (Or.inr h1)), by decide⟩

theorem aaplDateCore_no_exhibit {t : List Char} (ha : aaplDateCore t = true) :
    containsSub t "exhibit".data = false := by
  unfold aaplDateCore at ha
  split at ha
  next a1 a2 a3 a4 a5 a6 a7 y1 y2 m1 m2 d1 d2 s1 s2 s3 s4 =>
    simp only [Bool.and_eq_true, beq_iff_eq] at ha
    obtain ⟨⟨⟨⟨⟨⟨⟨⟨⟨⟨⟨⟨⟨⟨h1, h2⟩, h3⟩, h4⟩, h5⟩, h6⟩, h7⟩, hy1⟩, hy2⟩, hmo⟩, hda⟩, h8⟩, h9⟩, h10⟩, h11⟩ := ha
    subst h1; subst h2; subst h3; subst h4; subst h5; subst h6; subst h7
    subst h8; subst h9; subst h10; subst h11
    obtain ⟨hm1, hm2⟩ := monthOk_parts hmo
    obtain ⟨hd1, hd2⟩ := dayOk_parts hda
    refine containsSub_false_of_notMem _ _ _ ?_
    intro hm
    simp only [List.mem_cons, List.not_mem_nil, or_false] at hm
    rcases hm with hm|hm|hm|hm|hm|hm|hm|hm|hm|hm|hm|hm|hm|hm|hm|hm|hm
    all_goals first
      | exact absurd hm (by decide)
      | (rw [← hm] at hy1; exact absurd hy1 (by decide))
      | (rw [← hm] at hy2; exact absurd hy2 (by decide))
      | (rw [← hm] at hm2; exact absurd hm2 (by decide))
      | (rw [← hm] at hd2; exact absurd hd2 (by decide))
      | (rcases hm1 with h'|h' <;> rw [← hm] at h' <;> exact absurd h' (by decide))
      | (rcases hd1 with h'|h'|h'|h' <;> rw [← hm] at h' <;> exact absurd h' (by decide))
  next => exact absurd ha (by simp)

theorem tenK20Core_no_exhibit {t : List Char} (ha : tenK20Core t = true) :
    containsSub t "exhibit".data = false := by
  unfold tenK20Core at ha
  split at ha
  next a1 a2 a3 a4 a5 a6 d1 d2 s1 s2 s3 s4 =>
    simp only [Bool.and_eq_true, beq_iff_eq] at ha
    obtain ⟨⟨⟨⟨⟨⟨⟨⟨⟨⟨⟨h1, h2⟩, h3⟩, h4⟩, h5⟩, h6⟩, hd1⟩, hd2⟩, h7⟩, h8⟩, h9⟩, h10⟩ := ha
    subst h1; subst h2; subst h3; subst h4; subst h5; subst h6
    subst h7; subst h8; subst h9; subst h10
    refine containsSub_false_of_notMem _ _ _ ?_
    intro hm
    simp only [List.mem_cons, List.not_mem_nil, or_false] at hm
    rcases hm with hm|hm|hm|hm|hm|hm|hm|hm|hm|hm|hm|hm
    all_goals first
      | exact absurd hm (by decide)
      | (rw [← hm] at hd1; exact absurd hd1 (by decide))
      | (rw [← hm] at hd2; exact absurd hd2 (by decide))
  next a1 a2 a3 a4 a5 d1 d2 s1 s2 s3 s4 =>
    simp only [Bool.and_eq_true, beq_iff_eq] at ha
    obtain ⟨⟨⟨⟨⟨⟨⟨⟨⟨⟨h1, h2⟩, h3⟩, h4⟩, h5⟩, hd1⟩, hd2⟩, h6⟩, h7⟩, h8⟩, h9⟩ := ha
    subst h1; subst h2; subst h3; subst h4; subst h5
    subst h6; subst h7; subst h8; subst h9
    refine containsSub_false_of_notMem _ _ _ ?_
    intro hm
    simp only [List.mem_cons, List.not_mem_nil, or_false] at hm
    rcases hm with hm|hm|hm|hm|hm|hm|hm|hm|hm|hm|hm
    all_goals first
      | exact absurd hm (by decide)
      | (rw [← hm] at hd1; exact absurd hd1 (by decide))
      | (rw [← hm] at hd2; exact absurd hd2 (by decide))
  next => exact absurd ha (by simp)

/-- C4 counterexample: a one-row table whose only file is
`exhibit1.htm` (an exhibit).  The cascade selects it at stage 17, the
"any HTM file" last-resort predicate — which accepts only `.htm` files
and is *not* the absolute-last-resort tier accepting any file with a
link (stage 19).  So an exhibit row *is* selected by a tier other than
the any-link tier, contradicting the claim. -/
theorem exhibit_exclusion_counterexample :
    selectDocument [{ cells := [{ text := "EX-99.1".data, href := none },
                                { text := "EXHIBIT 99.1".data, href := none },
                                { text := "exhibit1.htm".data, href := some "ex1.htm".data }] }]
        = some (17, { text := "exhibit1.htm".data, href := some "ex1.htm".data })
      ∧ containsSub (pyNorm "exhibit1.htm".data) "exhibit".data = true
      ∧ (17 : Nat) ≠ 19 := by
  refine ⟨by decide, by decide, by decide⟩

/-- C4 (amended): a row whose type/filename cell contains "exhibit"
is never selected by the exact-category predicates (0, 1), the fixed
filer/date patterns (3, 4), the generic form patterns (5-7), the
description-based predicates (8-12), or the non-exhibit `.htm`
predicates (14-16); it can only be selected by the filer-specific
wildcard pattern (2), the complete-submission predicate (13), the
any-`.htm`/any-`.html` last-resort predicates (17, 18), or the final
any-link predicate (19). -/
theorem exhibit_exclusion_amended (rows : List Row) (j : Nat) (c : Cell)
    (hsel : selectDocument rows = some (j, c))
    (hex : containsSub (pyNorm c.text) "exhibit".data = true) :
    j = 2 ∨ j = 13 ∨ j = 17 ∨ j = 18 ∨ j = 19 := by
  have hQ : priAt j c.text = true := by
    refine cascadeLoop_sound rows (fun j2 c2 => priAt j2 c2.text = true) filePriorities 0 none
      ?_ ?_ j c hsel
    · intro j2 c2 h
      exact Option.noConfusion h
    · intro k c2 hf
      have hp := (findHit_some hf).1
      simpa [priAt] using hp
  have hlt : j < 20 := by
    by_contra hge
    rw [Nat.not_lt] at hge
    have hlen : filePriorities.length ≤ j := by
      simpa [filePriorities] using hge
    rw [priAt, List.getD_eq_default _ _ hlen] at hQ
    exact Bool.noConfusion hQ
  have hA : priAt 0 = pri0 := rfl
  have hB : priAt 1 = pri1 := rfl
  have hC : priAt 3 = pri3 := rfl
  have hD : priAt 4 = pri4 := rfl
  have hE : priAt 5 = pri5 := rfl
  have hF : priAt 6 = pri6 := rfl
  have hG : priAt 7 = pri7 := rfl
  interval_cases j
  · rw [hA] at hQ
    simp only [pri0, Bool.and_eq_true, beq_iff_eq] at hQ
    rw [hQ.1] at hex
    exact absurd hex (by decide)
  · rw [hB] at hQ
    simp only [pri1, Bool.and_eq_true, beq_iff_eq] at hQ
    rw [hQ.1] at hex
    exact absurd hex (by decide)
  · exact Or.inl rfl
  · rw [hC] at hQ
    rw [aaplYearCore_no_exhibit hQ] at hex
    exact Bool.noConfusion hex
  · rw [hD] at hQ
    rw [aaplDateCore_no_exhibit hQ] at hex
    exact Bool.noConfusion hex
  · rw [hE] at hQ
    simp only [pri5, Bool.or_eq_true, beq_iff_eq] at hQ
    rcases hQ with hQ | hQ <;> rw [hQ] at hex <;> exact absurd hex (by decide)
  · rw [hF] at hQ
    simp only [pri6, Bool.or_eq_true, beq_iff_eq] at hQ
    rcases hQ with hQ | hQ <;> rw [hQ] at hex <;> exact absurd hex (by decide)
  · rw [hG] at hQ
    rw [tenK20Core_no_exhibit hQ] at hex
    exact Bool.noConfusion hex
  · have h8 : pri8 c.text = true := hQ
    simp [pri8, hex] at h8
  · have h9 : pri9 c.text = true := hQ
    simp [pri9, hex] at h9
  · have h10 : pri10 c.text = true := hQ
    simp [pri10, hex] at h10
  · have h11 : pri11 c.text = true := hQ
    simp [pri11, hex] at h11
  · have h12 : pri12 c.text = true := hQ
    simp [pri12, hex] at h12
  · exact Or.inr (Or.inl rfl)
  · have h14 : pri14 c.text = true := hQ
    simp [pri14, hex] at h14
  · have h15 : pri15 c.text = true := hQ
    simp [pri15, hex] at h15
  · have h16 : pri16 c.text = true := hQ
    simp [pri16, hex] at h16
  · exact Or.inr (Or.inr (Or.inl rfl))
  · exact Or.inr (Or.inr (Or.inr (Or.inl rfl)))
  · exact Or.inr (Or.inr (Or.inr (Or.inr rfl)))

/-- C4 witness: the amended theorem applied at the concrete exhibit
table, where the selection lands on stage 17. -/
theorem exhibit_exclusion_amended_witness :
    (17 : Nat) = 2 ∨ (17 : Nat) = 13 ∨ (17 : Nat) = 17 ∨ (17 : Nat) = 18 ∨ (17 : Nat) = 19 :=
  exhibit_exclusion_amended
    [{ cells := [{ text := "EX-99.1".data, href := none },
                 { text := "EXHIBIT 99.1".data, href := none },
                 { text := "exhibit1.htm".data, href := some "ex1.htm".data }] }]
    17 { text := "exhibit1.htm".data, href := some "ex1.htm".data }
    (by decide) (by decide)

/-! ### Chunker lemmas (C2, C3, C8) -/

theorem pySlice_take (T : List Char) (s M : Nat) :
    (T.take (min (s + M) T.length)).drop s = (T.drop s).take M := by
  have h1 : T.take (min (s + M) T.length) = T.take (s + M) := by
    rw [← List.take_take, List.take_length]
  rw [h1, List.drop_take, Nat.add_sub_cancel_left]

theorem summarize_filing_in_range {T : List Char} {M : Nat} {i : Nat}
    (hi : i < totalChunks T M) :
    summarize_filing T (i : Int) M
      = chunkMarker (i : Int) (totalChunks T M) ++ (T.drop (i * M)).take M := by
  simp only [summarize_filing]
  rw [if_neg (by omega : ¬((i : Int) = -1)),
    if_neg (by omega : ¬((i : Int) < 0 ∨ (totalChunks T M : Int) ≤ (i : Int)))]
  rw [Int.toNat_ofNat, pySlice_take]

theorem chunksJoin (M : Nat) (hM : 1 ≤ M) :
    ∀ (n : Nat) (l : List Char), totalChunks l M = n →
      ((List.range n).map (fun i => (l.drop (i * M)).take M)).flatten = l := by
  intro n
  induction n with
  | zero =>
    intro l h
    have hl : l.length = 0 := by
      unfold totalChunks at h
      rw [Nat.div_eq_zero_iff (by omega)] at h
      omega
    rw [List.length_eq_zero] at hl
    subst hl
    rfl
  | succ n ih =>
    intro l h
    have hlen : 0 < l.length := by
      by_contra hc
      push_neg at hc
      have h0 : l.length = 0 := by omega
      unfold totalChunks at h
      rw [h0] at h
      have e : (0 + M - 1) / M = 0 := Nat.div_eq_of_lt (by omega)
      rw [e] at h
      exact absurd h (by omega)
    have hrest : ((List.range n).map (fun i => ((l.drop M).drop (i * M)).take M)).flatten
        = l.drop M := by
      apply ih
      unfold totalChunks at h ⊢
      rw [List.length_drop]
      by_cases hge : M ≤ l.length
      · have e1 : l.length - M + M - 1 = l.length - 1 := by omega
        rw [e1]
        have e2 : l.length + M - 1 = (l.length - 1) + M := by omega
        rw [e2, Nat.add_div_right _ (by omega : 0 < M)] at h
        omega
      · push_neg at hge
        have e1 : l.length - M = 0 := by omega
        rw [e1]
        have e2 : (0 + M - 1) / M = 0 := Nat.div_eq_of_lt (by omega)
        rw [e2]
        have e3 : (l.length + M - 1) / M = 1 :=
          Nat.div_eq_of_lt_le (by omega) (by omega)
        omega
    have hmap : ((List.range n).map Nat.succ).map (fun i => (l.drop (i * M)).take M)
        = (List.range n).map (fun i => ((l.drop M).drop (i * M)).take M) := by
      rw [List.map_map]
      apply List.map_congr_left
      intro a _
      simp only [Function.comp]
      have e : Nat.succ a * M = M + a * M := by
        rw [Nat.succ_mul]
        omega
      rw [e, ← List.drop_drop]
    rw [List.range_succ_eq_map, List.map_cons, List.flatten_cons, hmap, hrest]
    simp only [Nat.zero_mul, List.drop_zero]
    exact List.take_append_drop M l

/-- C2 counterexample: the outputs of `summarize_filing` carry the
`"[Chunk i+1 of total] "` marker, so concatenating the outputs for
indices `0..total-1` does *not* reconstruct the text: for `T = "ab"`,
`M = 1` the concatenation is
`"[Chunk 1 of 2] a[Chunk 2 of 2] b"`, not `"ab"`. -/
theorem chunk_roundtrip_counterexample :
    ((List.range (totalChunks "ab".data 1)).map
        (fun (i : Nat) => summarize_filing "ab".data (i : Int) 1)).flatten ≠ "ab".data := by
  decide

/-- C2 (amended): stripping each output's chunk marker and then
concatenating the substring parts for indices `0..total-1`
reconstructs the extracted text exactly, for every text and every
`max_chunk_size ≥ 1`. -/
theorem chunk_roundtrip_amended (T : List Char) (M : Nat) (hM : 1 ≤ M) :
    ((List.range (totalChunks T M)).map
        (fun (i : Nat) => (summarize_filing T (i : Int) M).drop
          (chunkMarker (i : Int) (totalChunks T M)).length)).flatten = T := by
  have hcongr : ∀ i ∈ List.range (totalChunks T M),
      (summarize_filing T (i : Int) M).drop (chunkMarker (i : Int) (totalChunks T M)).length
        = (T.drop (i * M)).take M := by
    intro i hi
    rw [List.mem_range] at hi
    rw [summarize_filing_in_range hi, List.drop_left]
  rw [List.map_congr_left hcongr]
  exact chunksJoin M hM (totalChunks T M) T rfl

/-- C2 witness: the amended round-trip at `T = "abc"`, `M = 2`. -/
theorem chunk_roundtrip_amended_witness :
    (1 : Nat) ≤ 2
      ∧ ((List.range (totalChunks "abc".data 2)).map
          (fun (i : Nat) => (summarize_filing "abc".data (i : Int) 2).drop
            (chunkMarker (i : Int) (totalChunks "abc".data 2)).length)).flatten = "abc".data :=
  ⟨by decide, chunk_roundtrip_amended "abc".data 2 (by decide)⟩

/-- C3 counterexample: for the empty text the code computes
`total_chunks = (0 + M - 1) // M = 0`, not the claimed minimum of 1,
and the `chunk_index = -1` call reports "0 chunks" with the nonsensical
range "0 to -1". -/
theorem chunk_count_counterexample :
    totalChunks [] 1 = 0 ∧ specTotalChunks [] 1 = 1
      ∧ summarize_filing [] (-1) 1
          = "Filing has 0 chunks. Use chunk_index=0 to -1 to retrieve specific chunks.".data := by
  refine ⟨rfl, rfl, by decide⟩

/-- C3 (amended): the total reported with `chunk_index = -1` is
`ceil(len(T)/M)` with *no* minimum of 1 (it is 0 for empty text): the
chunk total is the exact ceiling of `len(T)/M` (characterised by
`total ≤ k ↔ len(T) ≤ k*M`), it is at least 1 whenever `T` is
nonempty, and the `chunk_index = -1` call returns only a
count-description determined by `len(T)` — never filing content
(texts of equal length give the identical string). -/
theorem chunk_count_amended (T T2 : List Char) (M : Nat) (hM : 1 ≤ M)
    (hlen : T.length = T2.length) :
    summarize_filing T (-1) M = summarize_filing T2 (-1) M
      ∧ (∀ k, totalChunks T M ≤ k ↔ T.length ≤ k * M)
      ∧ (T ≠ [] → 1 ≤ totalChunks T M) := by
  refine ⟨?_, ?_, ?_⟩
  · simp [summarize_filing, totalChunks, hlen]
  · intro k
    unfold totalChunks
    have ekM : (k + 1) * M = k * M + M := by
      rw [Nat.succ_mul]
    constructor
    · intro h
      have h2 : T.length + M - 1 < (k + 1) * M :=
        (Nat.div_lt_iff_lt_mul (by omega : 0 < M)).mp (by omega)
      rw [ekM] at h2
      omega
    · intro h
      have h2 : T.length + M - 1 < (k + 1) * M := by
        rw [ekM]
        omega
      have h3 := (Nat.div_lt_iff_lt_mul (by omega : 0 < M)).mpr h2
      omega
  · intro hne
    have hlen1 : 1 ≤ T.length := by
      cases T with
      | nil => exact absurd rfl hne
      | cons a t => simp
    unfold totalChunks
    exact (Nat.le_div_iff_mul_le (by omega : 0 < M)).mpr (by omega)

/-- C3 witness: the amended statement at `T = "abcd"`, `T2 = "wxyz"`,
`M = 2`. -/
theorem chunk_count_amended_witness :
    (1 : Nat) ≤ 2
      ∧ (summarize_filing "abcd".data (-1) 2 = summarize_filing "wxyz".data (-1) 2
        ∧ (∀ k, totalChunks "abcd".data 2 ≤ k ↔ "abcd".data.length ≤ k * 2)
        ∧ ("abcd".data ≠ [] → 1 ≤ totalChunks "abcd".data 2)) :=
  ⟨by decide, chunk_count_amended "abcd".data "wxyz".data 2 (by decide) (by decide)⟩

/-- C8: chunk-index validation of `summarize_filing`: for `M ≥ 1` and
any integer index `i`, (a) if `i ≠ -1` and `i` lies outside
`[0, total-1]` the call returns the invalid-index message — a value
reporting the total and the valid range, not a raised exception (the
embedding is a total function into strings); (b) if `0 ≤ i < total`
the call returns the `"[Chunk i+1 of total] "` marker followed by the
substring `[i*M, min((i+1)*M, len(T)))`. -/
theorem chunk_index_validation (T : List Char) (M : Nat) (i : Int) (_hM : 1 ≤ M) :
    (i ≠ -1 → (i < 0 ∨ (totalChunks T M : Int) ≤ i) →
        summarize_filing T i M = invalidChunkMsg (totalChunks T M))
      ∧ (0 ≤ i → i < (totalChunks T M : Int) →
        summarize_filing T i M
          = chunkMarker i (totalChunks T M)
            ++ (T.take (min ((i.toNat + 1) * M) T.length)).drop (i.toNat * M)) := by
  constructor
  · intro h1 h2
    simp only [summarize_filing]
    rw [if_neg h1, if_pos h2]
  · intro h1 h2
    simp only [summarize_filing]
    rw [if_neg (by omega : ¬(i = -1)),
      if_neg (by omega : ¬(i < 0 ∨ (totalChunks T M : Int) ≤ i))]
    have e : (i.toNat + 1) * M = i.toNat * M + M := by
      rw [Nat.succ_mul]
    rw [e]

/-- C8 witness: `"abcde"` with `M = 2` has 3 chunks; index `-5` gets
the invalid-index message and index `1` gets the marked substring. -/
theorem chunk_index_validation_witness :
    summarize_filing "abcde".data (-5) 2 = invalidChunkMsg (totalChunks "abcde".data 2) :=
  (chunk_index_validation "abcde".data 2 (-5) (by decide)).1 (by decide) (by decide)

/-! ## Retry wrapper (`retry_with_backoff` / `should_retry_request`,
sec_filings.py lines 31-109)

Exceptions carry their `str(e)` message.  `requests` exception classes
are modelled by constructor: connection errors, timeouts, HTTP errors
(with the response's status code, or `none` when the exception has no
response attached), other `RequestException`s, and any other
exception.  Delay arithmetic is over `ℚ` (exact rationals in place of
Python floats); `random.random()` is an oracle `rand : Nat → ℚ` giving
the draw of each loop iteration, with values in `[0, 1)`. -/

inductive PyExc where
  | connectionError (msg : String)
  | timeout (msg : String)
  | httpError (status : Option Nat) (msg : String)
  | otherRequestError (msg : String)
  | otherError (msg : String)
deriving DecidableEq

def PyExc.message : PyExc → String
  | .connectionError m => m
  | .timeout m => m
  | .httpError _ m => m
  | .otherRequestError m => m
  | .otherError m => m

/-- Predicate `should_retry_request`: retry on connection errors, timeouts, and
HTTP errors whose attached response has status 429 or 5xx; everything
else (including an `HTTPError` with no response) is not retried. -/
def should_retry_request : PyExc → Bool
  | .connectionError _ => true
  | .timeout _ => true
  | .httpError (some s) _ => s == 429 || decide (500 ≤ s ∧ s < 600)
  | .httpError none _ => false
  | .otherRequestError _ => false
  | .otherError _ => false

structure RetryConfig where
  maxRetries : Nat
  initialDelay : ℚ
  backoffFactor : ℚ
  jitter : Bool

/-- The body of `retry_with_backoff`'s `for retry in range(max_retries
+ 1)` loop.  `attempt k` is the outcome of the wrapped call on loop
iteration `k`; the result records the number of attempts made, the
sleep durations in order, and the returned value or raised exception.
`fuel` counts the remaining loop iterations; `none` models falling off
the end of the loop (unreachable when `fuel` starts at
`max_retries + 1`). -/
def retryStep (cfg : RetryConfig) (retryOn : Option (PyExc → Bool))
    (attempt : Nat → Except PyExc Unit) (rand : Nat → ℚ) :
    Nat → Nat → ℚ → List ℚ → Option (Nat × List ℚ × Except PyExc Unit)
  | 0, _, _, _ => none
  | fuel + 1, retry, delay, sleeps =>
    match attempt retry with
    | .ok a => some (retry + 1, sleeps.reverse, .ok a)
    | .error e =>
      if (match retryOn with | some f => !f e | none => false) then
        some (retry + 1, sleeps.reverse, .error e)
      else if cfg.maxRetries ≤ retry then
        some (retry + 1, sleeps.reverse, .error e)
      else
        let d := if cfg.jitter then delay * (1 + rand retry * (1 / 10)) else delay
        retryStep cfg retryOn attempt rand fuel (retry + 1)
          (delay * cfg.backoffFactor) (d :: sleeps)

/-- Wrapper `retry_with_backoff(max_retries, initial_delay,
backoff_factor, jitter, retry_on)` applied to a wrapped call. -/
def retry_with_backoff (cfg : RetryConfig) (retryOn : Option (PyExc → Bool))
    (attempt : Nat → Except PyExc Unit) (rand : Nat → ℚ) :
    Option (Nat × List ℚ × Except PyExc Unit) :=
  retryStep cfg retryOn attempt rand (cfg.maxRetries + 1) 0 cfg.initialDelay []

/-- The expected sleep trace when every attempt fails with a retryable
error: `n` sleeps starting from base delay `d` at loop index `r`,
each `base * (1 + rand k / 10)`, base multiplied by the backoff factor
between sleeps. -/
def jitterTrace (rand : Nat → ℚ) (backoff : ℚ) : ℚ → Nat → Nat → List ℚ
  | _, _, 0 => []
  | d, r, n + 1 => d * (1 + rand r * (1 / 10)) :: jitterTrace rand backoff (d * backoff) (r + 1) n

theorem jitterTrace_length (rand : Nat → ℚ) (backoff : ℚ) :
    ∀ (n : Nat) (d : ℚ) (r : Nat), (jitterTrace rand backoff d r n).length = n := by
  intro n
  induction n with
  | zero => intro d r; rfl
  | succ n ih =>
    intro d r
    simp [jitterTrace, ih]

theorem jitterTrace_get (rand : Nat → ℚ) (backoff : ℚ) :
    ∀ (n k : Nat) (d : ℚ) (r : Nat), k < n →
      (jitterTrace rand backoff d r n).get? k
        = some (d * backoff ^ k * (1 + rand (r + k) * (1 / 10))) := by
  intro n
  induction n with
  | zero => intro k d r hk; omega
  | succ n ih =>
    intro k d r hk
    cases k with
    | zero =>
      rw [pow_zero, mul_one, Nat.add_zero]
      rfl
    | succ k =>
      have h2 : (jitterTrace rand backoff d r (n + 1)).get? (k + 1)
          = (jitterTrace rand backoff (d * backoff) (r + 1) n).get? k := rfl
      rw [h2, ih k (d * backoff) (r + 1) (by omega)]
      have e1 : r + 1 + k = r + (k + 1) := by omega
      rw [e1]
      congr 1
      ring

/-- One unfolding of the retry loop. -/
theorem retryStep_succ (cfg : RetryConfig) (retryOn : Option (PyExc → Bool))
    (attempt : Nat → Except PyExc Unit) (rand : Nat → ℚ)
    (fuel retry : Nat) (delay : ℚ) (sleeps : List ℚ) :
    retryStep cfg retryOn attempt rand (fuel + 1) retry delay sleeps
      = match attempt retry with
        | .ok a => some (retry + 1, sleeps.reverse, .ok a)
        | .error e =>
          if (match retryOn with | some f => !f e | none => false) then
            some (retry + 1, sleeps.reverse, .error e)
          else if cfg.maxRetries ≤ retry then
            some (retry + 1, sleeps.reverse, .error e)
          else
            retryStep cfg retryOn attempt rand fuel (retry + 1)
              (delay * cfg.backoffFactor)
              ((if cfg.jitter then delay * (1 + rand retry * (1 / 10)) else delay) :: sleeps) := by
  rfl

theorem retryStep_allFail (cfg : RetryConfig) (rand : Nat → ℚ) (e : PyExc)
    (hjit : cfg.jitter = true) (hretry : should_retry_request e = true) :
    ∀ (k r : Nat) (d : ℚ) (s : List ℚ), cfg.maxRetries = r + k →
      retryStep cfg (some should_retry_request) (fun _ => .error e) rand (k + 1) r d s
        = some (r + k + 1,
            s.reverse ++ jitterTrace rand cfg.backoffFactor d r k, .error e) := by
  intro k
  induction k with
  | zero =>
    intro r d s hmax
    rw [retryStep_succ]
    simp [hretry, hmax, jitterTrace]
  | succ k ih =>
    intro r d s hmax
    have hnot : ¬(cfg.maxRetries ≤ r) := by omega
    have e1 : r + (k + 1) + 1 = r + 1 + k + 1 := by omega
    have e2 : jitterTrace rand cfg.backoffFactor d r (k + 1)
        = d * (1 + rand r * (1 / 10))
            :: jitterTrace rand cfg.backoffFactor (d * cfg.backoffFactor) (r + 1) k := rfl
    rw [retryStep_succ]
    simp only [hretry, Bool.not_true, Bool.false_eq_true, if_false, hjit, if_true]
    rw [if_neg hnot]
    rw [ih (r + 1) (d * cfg.backoffFactor) (d * (1 + rand r * (1 / 10)) :: s) (by omega)]
    rw [e1, e2, List.reverse_cons, List.append_assoc]
    rfl

theorem retryStep_total (cfg : RetryConfig) (retryOn : Option (PyExc → Bool))
    (attempt : Nat → Except PyExc Unit) (rand : Nat → ℚ) :
    ∀ (fuel r : Nat) (d : ℚ) (s : List ℚ), r + fuel = cfg.maxRetries + 1 → 0 < fuel →
      ∃ n sleeps res,
        retryStep cfg retryOn attempt rand fuel r d s = some (n, sleeps, res) ∧ r + 1 ≤ n := by
  intro fuel
  induction fuel with
  | zero => intro r d s _ h0; omega
  | succ fuel ih =>
    intro r d s hinv _
    rw [retryStep_succ]
    cases hatt : attempt r with
    | ok a => exact ⟨r + 1, s.reverse, .ok a, rfl, by omega⟩
    | error e =>
      by_cases hmax : cfg.maxRetries ≤ r
      · cases retryOn with
        | none => exact ⟨r + 1, s.reverse, .error e, by simp [hmax], by omega⟩
        | some f =>
          by_cases hf : f e = true
          · exact ⟨r + 1, s.reverse, .error e, by simp [hf, hmax], by omega⟩
          · exact ⟨r + 1, s.reverse, .error e, by simp [hf], by omega⟩
      · cases retryOn with
        | none =>
          obtain ⟨n, sleeps, res, heq, hn⟩ := ih (r + 1) (d * cfg.backoffFactor)
            ((if cfg.jitter then d * (1 + rand r * (1 / 10)) else d) :: s) (by omega) (by omega)
          exact ⟨n, sleeps, res, by simpa [hmax] using heq, by omega⟩
        | some f =>
          by_cases hf : f e = true
          · obtain ⟨n, sleeps, res, heq, hn⟩ := ih (r + 1) (d * cfg.backoffFactor)
              ((if cfg.jitter then d * (1 + rand r * (1 / 10)) else d) :: s) (by omega) (by omega)
            exact ⟨n, sleeps, res, by simpa [hf, hmax] using heq, by omega⟩
          · exact ⟨r + 1, s.reverse, .error e, by simp [hf], by omega⟩

/-- C6: for a fetch that fails on every attempt with a retryable error
(e.g. HTTP 503), `retry_with_backoff` (with jitter, as `make_request`
uses it) makes exactly `max_retries + 1` attempts and then re-raises
the error; the `k`-th inter-attempt delay lies within
`[base_k, base_k * 11/10]` where `base_k = initial_delay *
backoff_factor ^ k` — the base delay times a random factor in
`[1, 1.1]`, the base increasing by the backoff factor after each
retry. -/
theorem retry_ceiling (maxR : Nat) (init backoff : ℚ) (rand : Nat → ℚ) (e : PyExc)
    (hinit : 0 < init) (hback : 0 < backoff)
    (hrand : ∀ k, 0 ≤ rand k ∧ rand k < 1)
    (hretry : should_retry_request e = true) :
    ∃ sleeps : List ℚ,
      retry_with_backoff ⟨maxR, init, backoff, true⟩ (some should_retry_request)
          (fun _ => .error e) rand
        = some (maxR + 1, sleeps, .error e)
      ∧ sleeps.length = maxR
      ∧ ∀ k, k < maxR → ∃ d, sleeps.get? k = some d
          ∧ init * backoff ^ k ≤ d ∧ d ≤ init * backoff ^ k * (11 / 10) := by
  refine ⟨jitterTrace rand backoff init 0 maxR, ?_, ?_, ?_⟩
  · unfold retry_with_backoff
    have h := retryStep_allFail ⟨maxR, init, backoff, true⟩ rand e rfl hretry maxR 0 init []
      (by simp)
    simpa using h
  · exact jitterTrace_length rand backoff maxR init 0
  · intro k hk
    refine ⟨init * backoff ^ k * (1 + rand k * (1 / 10)), ?_, ?_, ?_⟩
    · have h := jitterTrace_get rand backoff maxR k init 0 hk
      simpa using h
    · have hb : 0 < init * backoff ^ k := mul_pos hinit (pow_pos hback k)
      have h1 : (1 : ℚ) ≤ 1 + rand k * (1 / 10) := by
        have h2 := (hrand k).1
        nlinarith
      exact le_mul_of_one_le_right (le_of_lt hb) h1
    · have hb : (0 : ℚ) ≤ init * backoff ^ k := le_of_lt (mul_pos hinit (pow_pos hback k))
      have h1 : 1 + rand k * (1 / 10) ≤ 11 / 10 := by
        have h2 := (hrand k).2
        nlinarith
      exact mul_le_mul_of_nonneg_left h1 hb

/-- C6 witness: `max_retries = 2`, `initial_delay = 1`,
`backoff_factor = 2`, zero jitter draws, constant HTTP 503. -/
theorem retry_ceiling_witness :
    (0 : ℚ) < 1 ∧ ∃ sleeps : List ℚ,
      retry_with_backoff ⟨2, 1, 2, true⟩ (some should_retry_request)
          (fun _ => .error (PyExc.httpError (some 503) "Service Unavailable")) (fun _ => 0)
        = some (2 + 1, sleeps, .error (PyExc.httpError (some 503) "Service Unavailable"))
      ∧ sleeps.length = 2
      ∧ ∀ k, k < 2 → ∃ d, sleeps.get? k = some d
          ∧ (1 : ℚ) * 2 ^ k ≤ d ∧ d ≤ 1 * 2 ^ k * (11 / 10) :=
  ⟨by norm_num,
    retry_ceiling 2 1 2 (fun _ => 0) (PyExc.httpError (some 503) "Service Unavailable")
      (by norm_num) (by norm_num) (fun _ => ⟨le_refl 0, by norm_num⟩) (by decide)⟩

/-- C7: the wrapper treats an exception as retryable if and only if it
is a connection error, a timeout, or an HTTP error whose response
status is 429 or in 500-599; a first attempt failing with any other
exception is re-raised immediately — exactly one attempt and no
backoff sleep — while a retryable first failure (with retry budget
remaining) leads to at least a second attempt. -/
theorem retry_predicate (cfg : RetryConfig) (attempt : Nat → Except PyExc Unit)
    (rand : Nat → ℚ) (e : PyExc) (h0 : attempt 0 = .error e) :
    (should_retry_request e = true ↔
        ((∃ m, e = .connectionError m) ∨ (∃ m, e = .timeout m)
          ∨ (∃ s m, e = .httpError (some s) m ∧ (s = 429 ∨ (500 ≤ s ∧ s < 600)))))
      ∧ (should_retry_request e = false →
        retry_with_backoff cfg (some should_retry_request) attempt rand
          = some (1, [], .error e))
      ∧ (should_retry_request e = true → 1 ≤ cfg.maxRetries →
        ∃ n sleeps res,
          retry_with_backoff cfg (some should_retry_request) attempt rand
            = some (n, sleeps, res) ∧ 2 ≤ n) := by
  refine ⟨?_, ?_, ?_⟩
  · cases e with
    | connectionError m =>
      exact ⟨fun _ => Or.inl ⟨m, rfl⟩, fun _ => rfl⟩
    | timeout m =>
      exact ⟨fun _ => Or.inr (Or.inl ⟨m, rfl⟩), fun _ => rfl⟩
    | httpError st m =>
      cases st with
      | none =>
        refine ⟨fun h => by simp [should_retry_request] at h, ?_⟩
        rintro (⟨m2, h⟩ | ⟨m2, h⟩ | ⟨s2, m2, h, -⟩)
        · exact PyExc.noConfusion h
        · exact PyExc.noConfusion h
        · injection h with h1 h2
          exact Option.noConfusion h1
      | some s =>
        constructor
        · intro h
          simp only [should_retry_request, Bool.or_eq_true, beq_iff_eq,
            decide_eq_true_eq] at h
          exact Or.inr (Or.inr ⟨s, m, rfl, by omega⟩)
        · rintro (⟨m2, h⟩ | ⟨m2, h⟩ | ⟨s2, m2, h, hs⟩)
          · exact PyExc.noConfusion h
          · exact PyExc.noConfusion h
          · injection h with h1 h2
            injection h1 with h1
            subst h1
            simp only [should_retry_request, Bool.or_eq_true, beq_iff_eq,
              decide_eq_true_eq]
            omega
    | otherRequestError m =>
      refine ⟨fun h => by simp [should_retry_request] at h, ?_⟩
      rintro (⟨m2, h⟩ | ⟨m2, h⟩ | ⟨s2, m2, h, -⟩) <;> exact PyExc.noConfusion h
    | otherError m =>
      refine ⟨fun h => by simp [should_retry_request] at h, ?_⟩
      rintro (⟨m2, h⟩ | ⟨m2, h⟩ | ⟨s2, m2, h, -⟩) <;> exact PyExc.noConfusion h
  · intro hno
    unfold retry_with_backoff
    rw [retryStep_succ, h0]
    simp [hno]
  · intro hyes hmax1
    have hnot : ¬(cfg.maxRetries ≤ 0) := by omega
    obtain ⟨n, sleeps, res, heq, hn⟩ := retryStep_total cfg (some should_retry_request)
      attempt rand cfg.maxRetries 1
      (cfg.initialDelay * cfg.backoffFactor)
      ((if cfg.jitter then cfg.initialDelay * (1 + rand 0 * (1 / 10))
        else cfg.initialDelay) :: [])
      (by omega) (by omega)
    refine ⟨n, sleeps, res, ?_, by omega⟩
    unfold retry_with_backoff
    rw [retryStep_succ, h0]
    have hcond : (!should_retry_request e) = false := by rw [hyes]; rfl
    simp only [hcond, Bool.false_eq_true, if_false]
    rw [if_neg hnot]
    simpa using heq

/-- C7 witness: HTTP 404 is not retryable and is re-raised after a
single attempt with no sleep. -/
theorem retry_predicate_witness :
    retry_with_backoff ⟨3, 2, 2, true⟩ (some should_retry_request)
        (fun _ => .error (PyExc.httpError (some 404) "Not Found")) (fun _ => 0)
      = some (1, [], .error (PyExc.httpError (some 404) "Not Found")) :=
  (retry_predicate ⟨3, 2, 2, true⟩
      (fun _ => .error (PyExc.httpError (some 404) "Not Found")) (fun _ => 0)
      (PyExc.httpError (some 404) "Not Found") rfl).2.1 (by decide)

/-! ## Exception routing of `extract_filing_text`
(sec_filings.py lines 430-436 and 1104-1106)

The function's body is one big `try`.  Its first step fetches the
index page inside an inner `try` whose handler *returns* an error
string; everything after that first fetch is abstracted as `rest`, an
arbitrary computation that may raise.  The outer handler catches every
exception and returns `"Error extracting filing text: " + str(e)`.
The result type `Except PyExc String` leaves room for a propagated
exception (`.error`), so that whether exceptions escape the boundary
is expressible; the embedded code only ever produces `.ok`. -/

def extract_filing_text_body {π : Type} (fetchIndex : Except PyExc π)
    (rest : π → Except PyExc String) : Except PyExc String :=
  match fetchIndex with
  | .error e => .ok ("Failed to retrieve filing index page: " ++ e.message)
  | .ok page => rest page

def extract_filing_text {π : Type} (fetchIndex : Except PyExc π)
    (rest : π → Except PyExc String) : Except PyExc String :=
  match extract_filing_text_body fetchIndex rest with
  | .ok s => .ok s
  | .error e => .ok ("Error extracting filing text: " ++ e.message)

/-- C9 counterexample: a network-level failure of the index fetch
(HTTP 503 after retries) does *not* propagate as an exception — the
inner handler converts it into the returned string
`"Failed to retrieve filing index page: ..."`, so the result is a
value (`.ok`), never `.error`. -/
theorem extractor_network_counterexample :
    extract_filing_text (Except.error (PyExc.httpError (some 503) "503 Server Error"))
        (fun _ : Unit => Except.ok "document text")
      = Except.ok "Failed to retrieve filing index page: 503 Server Error" := by
  rfl

/-- C9 (amended): `extract_filing_text` never raises past its boundary
for *any* failure: it always returns a string; an unexpected internal
error from the body yields the descriptive
`"Error extracting filing text: " + str(e)` string; a fetch failure on
the index request yields the
`"Failed to retrieve filing index page: " + str(e)` string rather
than propagating as an exception. -/
theorem extractor_failure_amended {π : Type} (fetchIndex : Except PyExc π)
    (rest : π → Except PyExc String) :
    (∃ s, extract_filing_text fetchIndex rest = .ok s)
      ∧ (∀ e, fetchIndex = .error e →
        extract_filing_text fetchIndex rest
          = .ok ("Failed to retrieve filing index page: " ++ e.message))
      ∧ (∀ p e, fetchIndex = .ok p → rest p = .error e →
        extract_filing_text fetchIndex rest
          = .ok ("Error extracting filing text: " ++ e.message)) := by
  refine ⟨?_, ?_, ?_⟩
  · unfold extract_filing_text
    cases hb : extract_filing_text_body fetchIndex rest with
    | ok s => exact ⟨s, rfl⟩
    | error e => exact ⟨"Error extracting filing text: " ++ e.message, rfl⟩
  · intro e he
    subst he
    rfl
  · intro p e hp he
    subst hp
    unfold extract_filing_text extract_filing_text_body
    simp only [he]

/-- C9 witness: the amended contract at a concrete internal failure. -/
theorem extractor_failure_amended_witness :
    extract_filing_text (Except.ok ()) (fun _ : Unit => Except.error (PyExc.otherError "boom"))
      = Except.ok ("Error extracting filing text: " ++ (PyExc.otherError "boom").message) :=
  (extractor_failure_amended (Except.ok ())
      (fun _ : Unit => Except.error (PyExc.otherError "boom"))).2.2 () (PyExc.otherError "boom")
    rfl rfl

/-! ## CIK Resolver (`find_cik`, get_company_cik.py)

After the POST, the code inspects the parsed page: the HTTP status
code, whether a text node matching "No matching companies" was found,
and the text of each `<pre>` block.  Those three query results form
the abstract input.  The line regex `(\d{10})\s+(.+)$` is embedded
with Python `re.search` semantics (leftmost match; greedy `\s+` with
backtracking; `.` not matching a newline; `$` at end of string). -/

structure LookupPage where
  statusCode : Nat
  noMatch : Bool
  preBlocks : List (List Char)
deriving DecidableEq

structure CikEntry where
  cik : List Char
  company : List Char
  link : List Char
deriving DecidableEq

/-- Regex `(\d{10})\s+(.+)$` via `re.search`, anchored at one position:
ten digits, then at least one whitespace character, then a capture of
at least one non-newline character reaching the end of the string.
When everything after the digits is whitespace, the greedy `\s+`
backtracks one character into the capture (requiring at least two
whitespace characters and a non-newline last character). -/
def matchCikAt (l : List Char) : Option (List Char × List Char) :=
  let ds := l.take 10
  let rest := l.drop 10
  let w := (rest.takeWhile isPySpace).length
  let cap := rest.drop w
  if ds.length = 10 ∧ ds.all Char.isDigit = true ∧ 1 ≤ w then
    if cap ≠ [] then
      (if cap.all (fun c => c != '\n') then some (ds, cap) else none)
    else
      match rest.getLast? with
      | some c => if 2 ≤ w ∧ c ≠ '\n' then some (ds, [c]) else none
      | none => none
  else none

/-- Search semantics of `re.search`: try every start position, leftmost first. -/
def searchCik : List Char → Option (List Char × List Char)
  | [] => none
  | c :: rest =>
    match matchCikAt (c :: rest) with
    | some r => some r
    | none => searchCik rest

/-- One line of the `<pre>` text: skipped when blank after stripping
or containing a header marker; otherwise parsed by the regex, the
CIK being group 1 and the company group 2 stripped; the profile link
appends the CIK with leading zeros stripped (`lstrip('0')`). -/
def parseCikLine (line : List Char) : Option CikEntry :=
  if pyStrip line = [] ∨ containsSub line "CIK Code".data = true
      ∨ containsSub line "Company Name".data = true then none
  else
    match searchCik (pyStrip line) with
    | some (cik, name) =>
      some { cik := cik, company := pyStrip name,
             link := "https://www.sec.gov/browse-edgar?action=getcompany&CIK=".data
               ++ cik.dropWhile (fun c => c == '0') }
    | none => none

/-- Resolver `find_cik`: empty on non-200 status, empty on "No matching
companies", else all `<pre>` texts joined (each followed by a newline),
split on newlines, and parsed line by line. -/
def find_cik (page : LookupPage) : List CikEntry :=
  if page.statusCode ≠ 200 then []
  else if page.noMatch then []
  else if page.preBlocks.isEmpty then []
  else
    let allText := ((page.preBlocks.map (fun b => b ++ ['\n'])).flatten)
    (splitNl allText).filterMap parseCikLine

theorem matchCikAt_digits {l : List Char} {cik cap : List Char}
    (h : matchCikAt l = some (cik, cap)) :
    cik.length = 10 ∧ cik.all Char.isDigit = true := by
  unfold matchCikAt at h
  by_cases hc : (l.take 10).length = 10 ∧ (l.take 10).all Char.isDigit = true
      ∧ 1 ≤ ((l.drop 10).takeWhile isPySpace).length
  · have h1 := hc.1
    have h2 := hc.2.1
    by_cases hcap : (l.drop 10).drop ((l.drop 10).takeWhile isPySpace).length ≠ []
    · rw [if_pos hc, if_pos hcap] at h
      by_cases hnl : ((l.drop 10).drop ((l.drop 10).takeWhile isPySpace).length).all
          (fun c => c != '\n') = true
      · rw [if_pos hnl] at h
        injection h with h3
        injection h3 with h4 h5
        subst h4
        exact ⟨h1, h2⟩
      · rw [if_neg hnl] at h
        exact Option.noConfusion h
    · rw [if_pos hc, if_neg hcap] at h
      cases hlast : (l.drop 10).getLast? with
      | none => rw [hlast] at h; exact Option.noConfusion h
      | some c =>
        rw [hlast] at h
        have h' : (if 2 ≤ ((l.drop 10).takeWhile isPySpace).length ∧ c ≠ '\n'
            then some (l.take 10, [c]) else none) = some (cik, cap) := h
        by_cases h2w : 2 ≤ ((l.drop 10).takeWhile isPySpace).length ∧ c ≠ '\n'
        · rw [if_pos h2w] at h'
          injection h' with h3
          injection h3 with h4 h5
          subst h4
          exact ⟨h1, h2⟩
        · rw [if_neg h2w] at h'
          exact Option.noConfusion h'
  · rw [if_neg hc] at h
    exact Option.noConfusion h

theorem searchCik_digits : ∀ {l : List Char} {cik cap : List Char},
    searchCik l = some (cik, cap) → cik.length = 10 ∧ cik.all Char.isDigit = true
  | [], _, _, h => Option.noConfusion h
  | c :: rest, cik, cap, h => by
    unfold searchCik at h
    cases hm : matchCikAt (c :: rest) with
    | some r =>
      rw [hm] at h
      injection h with h2
      subst h2
      exact matchCikAt_digits hm
    | none =>
      rw [hm] at h
      exact searchCik_digits h

/-- C10: the CIK resolver's failure shape and parse discipline:
(a) any non-2xx status yields the empty list (the code returns `[]`
for every status other than 200) — a value, not an exception (the
embedding is a total function);
(b) a 200 response whose page reports "No matching companies" also
yields the empty list;
(c) a line that is blank after stripping, or contains the "CIK Code"
or "Company Name" header markers, is skipped;
(d) every entry produced comes from a line matching the
ten-digit-identifier regex: its CIK field is exactly 10 digits. -/
theorem cik_resolver_shape :
    (∀ page : LookupPage, (page.statusCode < 200 ∨ 300 ≤ page.statusCode) → find_cik page = [])
      ∧ (∀ page : LookupPage, page.statusCode = 200 → page.noMatch = true → find_cik page = [])
      ∧ (∀ line, (pyStrip line = [] ∨ containsSub line "CIK Code".data = true
          ∨ containsSub line "Company Name".data = true) → parseCikLine line = none)
      ∧ (∀ (page : LookupPage) (entry : CikEntry), entry ∈ find_cik page →
          entry.cik.length = 10 ∧ entry.cik.all Char.isDigit = true) := by
  refine ⟨?_, ?_, ?_, ?_⟩
  · intro page h
    unfold find_cik
    rw [if_pos (by omega : page.statusCode ≠ 200)]
  · intro page h200 hnm
    unfold find_cik
    rw [if_neg (by omega : ¬(page.statusCode ≠ 200)), if_pos hnm]
  · intro line h
    unfold parseCikLine
    rw [if_pos h]
  · intro page entry hmem
    unfold find_cik at hmem
    by_cases h200 : page.statusCode ≠ 200
    · rw [if_pos h200] at hmem
      exact absurd hmem (List.not_mem_nil entry)
    · rw [if_neg h200] at hmem
      by_cases hnm : page.noMatch = true
      · rw [if_pos hnm] at hmem
        exact absurd hmem (List.not_mem_nil entry)
      · rw [if_neg hnm] at hmem
        by_cases hpre : page.preBlocks.isEmpty = true
        · rw [if_pos hpre] at hmem
          exact absurd hmem (List.not_mem_nil entry)
        · rw [if_neg hpre] at hmem
          obtain ⟨line, -, hline⟩ := List.mem_filterMap.mp hmem
          unfold parseCikLine at hline
          by_cases hskip : pyStrip line = [] ∨ containsSub line "CIK Code".data = true
              ∨ containsSub line "Company Name".data = true
          · rw [if_pos hskip] at hline
            exact Option.noConfusion hline
          · rw [if_neg hskip] at hline
            cases hs : searchCik (pyStrip line) with
            | none => rw [hs] at hline; exact Option.noConfusion hline
            | some r =>
              obtain ⟨cik, name⟩ := r
              rw [hs] at hline
              injection hline with h2
              subst h2
              exact searchCik_digits hs

/-- C10 witness: a 404 page yields `[]`, and a blank line is
skipped. -/
theorem cik_resolver_shape_witness :
    find_cik { statusCode := 404, noMatch := false, preBlocks := [] } = []
      ∧ parseCikLine "  ".data = none :=
  ⟨cik_resolver_shape.1 { statusCode := 404, noMatch := false, preBlocks := [] }
      (Or.inr (by norm_num)),
    cik_resolver_shape.2.2.1 "  ".data (Or.inl (by decide))⟩

/-! ## Filing Locator (`find_filings`, sec_filings.py lines 145-390)

The BeautifulSoup queries are the abstract input: the `<entry>` tags
the parser found, the rows (cell lists) of all tables, and all `<a>`
tags, together with the raw response text (on which the manual regex
tier operates).  The tiers in source order:

1. parsed feed entries (`soup.find_all('entry')`);
2. if there are none and the lowered response text contains `"xml"`,
   regex recovery of `<entry>(.*?)</entry>` blocks, each wrapped in a
   `SimpleEntry` shim object;
3. if the entry list is still empty, a scan of table rows with at
   least 3 cells;
4. then a scan of all links;
5. else the empty list.

When entries exist (tier 1 or 2), they are converted to filings; for
a `SimpleEntry` with a truthy link the source evaluates
`entry.find('link').attrs` — but `SimpleEntry.find('link')` returns a
plain dict, which has no `attrs` attribute, so an `AttributeError` is
raised and caught by the enclosing handler, which returns a
single-element error-marker list. -/

structure FeedEntry where
  title : Option (List Char)
  updated : Option (List Char)
  linkHref : Option (List Char)
deriving DecidableEq

structure TCell where
  text : List Char
  href : Option (List Char)
deriving DecidableEq

structure PageLink where
  href : Option (List Char)
  text : List Char
deriving DecidableEq

structure FeedPage where
  rawText : List Char
  soupEntries : List FeedEntry
  tableRows : List (List TCell)
  links : List PageLink
deriving DecidableEq

inductive FilingItem where
  | filing (title filingDate link : List Char)
  | errorMarker (msg : List Char)
deriving DecidableEq

/-- The `str(e)` of the `AttributeError` raised when the entry
processing loop evaluates `.attrs` on the dict returned by
`SimpleEntry.find('link')` (Python renders the message with
apostrophes around `dict` and `attrs`). -/
def attrsErrorText : String :=
  "\u0027dict\u0027 object has no attribute \u0027attrs\u0027"

/-- A manually reconstructed entry (the `SimpleEntry` shim). -/
structure SimpleEntry where
  title : List Char
  updated : List Char
  link : Option (List Char)
deriving DecidableEq

inductive ParsedEntry where
  | soup (e : FeedEntry)
  | simple (e : SimpleEntry)
deriving DecidableEq

/-- Regex `<entry>(.*?)</entry>` via `re.findall` with `re.DOTALL`:
repeatedly take the first `<entry>`, capture up to the first
`</entry>` after it, continue past it.  `fuel` bounds the recursion
(the text length suffices). -/
def entryBlocksAux : Nat → List Char → List (List Char)
  | 0, _ => []
  | fuel + 1, text =>
    match splitAtFirst "<entry>".data text with
    | none => []
    | some (_, rest) =>
      match splitAtFirst "</entry>".data rest with
      | none => []
      | some (mid, rest2) => mid :: entryBlocksAux fuel rest2

def findEntryBlocks (text : List Char) : List (List Char) :=
  entryBlocksAux text.length text

/-- Regex `<open>(.*?)</close>` via `re.search` with `re.DOTALL`: the capture
between the first opening tag and the first closing tag after it. -/
def extractBetween (openTag closeTag mid : List Char) : Option (List Char) :=
  match splitAtFirst openTag mid with
  | none => none
  | some (_, rest) =>
    match splitAtFirst closeTag rest with
    | none => none
    | some (inner, _) => some inner

/-- Regex `<link[^>]*href="([^"]*)"` via `re.search`: at the leftmost
`<link`, the greedy `[^>]*` reaches the *last* `href="` inside the
following run of non-`>` characters, and the capture extends to the
next `"` (which must exist; otherwise backtrack to an earlier
`href="`, then to later `<link` positions). -/
def simpleEntryLink (mid : List Char) : Option (List Char) :=
  (patPositions "<link".data mid).findSome? fun p =>
    let afterL := mid.drop (p + 5)
    let run := afterL.takeWhile (fun c => c != '>')
    ((patPositions "href=\"".data run).reverse).findSome? fun j =>
      let capRest := afterL.drop (j + 6)
      if capRest.any (fun c => c == '"') then some (capRest.takeWhile (fun c => c != '"'))
      else none

/-- Build a `SimpleEntry` from one captured `<entry>` block: title and
updated via their tag regexes (defaulting to `"Unknown"`), link via
the `<link ... href="...">` regex (defaulting to `None`). -/
def parseSimpleEntry (mid : List Char) : SimpleEntry :=
  { title := (extractBetween "<title>".data "</title>".data mid).getD "Unknown".data
    updated := (extractBetween "<updated>".data "</updated>".data mid).getD "Unknown".data
    link := simpleEntryLink mid }

/-- The entry list after tiers 1 and 2: the parsed entries if any;
else, when the lowered response text contains `"xml"`, the regex-
recovered `SimpleEntry`s. -/
def collectEntries (page : FeedPage) : List ParsedEntry :=
  if page.soupEntries ≠ [] then page.soupEntries.map ParsedEntry.soup
  else if containsSub (pyLower page.rawText) "xml".data then
    (findEntryBlocks page.rawText).map (fun b => ParsedEntry.simple (parseSimpleEntry b))
  else []

/-- Processing of one entry in the `for entry in entries` loop:
`none` when the entry has no usable link (skipped), an item when it
does, and an `AttributeError` for a `SimpleEntry` with a truthy link
(the dict shim has no `.attrs`). -/
def entryItem : ParsedEntry → Except PyExc (Option FilingItem)
  | .soup e =>
    .ok (match e.linkHref with
      | some v => if v.isEmpty then none
          else some (.filing (e.title.getD "Unknown".data) (e.updated.getD "Unknown".data) v)
      | none => none)
  | .simple e =>
    match e.link with
    | some v => if v.isEmpty then .ok none else .error (.otherError attrsErrorText)
    | none => .ok none

def processEntries : List ParsedEntry → Except PyExc (List FilingItem)
  | [] => .ok []
  | e :: rest => do
    let item ← entryItem e
    let restItems ← processEntries rest
    return (match item with
      | some it => it :: restItems
      | none => restItems)

/-- Relative links are rebased onto `https://www.sec.gov`. -/
def rebase (h : List Char) : List Char :=
  if "http".data.isPrefixOf h then h else "https://www.sec.gov".data ++ h

/-- First cell of the row holding an `<a>` tag with an `href`
attribute, its value rebased. -/
def rowFirstLink (cells : List TCell) : Option (List Char) :=
  cells.findSome? (fun c => match c.href with | some h => some (rebase h) | none => none)

/-- The filing-type filter
`filing_type.lower() in filing_type_cell.lower() if filing_type else True`
(`None` and `""` are both falsy). -/
def ftMatch (ft : Option (List Char)) (cellText : List Char) : Bool :=
  match ft with
  | none => true
  | some fts => if fts.isEmpty then true else containsSub (pyLower cellText) (pyLower fts)

/-- Tier 3: rows with at least 3 cells; title from `cells[0]`
stripped, date from `cells[3]` if present, first cell link rebased;
kept when a link was found and the type filter passes. -/
def tier3Filings (page : FeedPage) (ft : Option (List Char)) : List FilingItem :=
  page.tableRows.filterMap fun cells =>
    if cells.length ≥ 3 then
      match rowFirstLink cells with
      | some link =>
        let ftc := pyStrip (cells.headD ⟨[], none⟩).text
        if ftMatch ft ftc then
          some (.filing ftc
            (if 3 < cells.length then pyStrip (cells.getD 3 ⟨[], none⟩).text else [])
            link)
        else none
      | none => none
    else none

/-- The tier-4 condition on one `<a>` tag: a truthy `href`, and the
filing type occurring in the lowered text or href (when the filing
type is truthy), or "filing"/"document" occurring in the text. -/
def tier4Cond (ft : Option (List Char)) (txt href : List Char) : Bool :=
  (match ft with
    | some fts => !fts.isEmpty && containsSub (pyLower txt) (pyLower fts)
    | none => false)
  || (match ft with
    | some fts => !fts.isEmpty && containsSub (pyLower href) (pyLower fts)
    | none => false)
  || containsSub (pyLower txt) "filing".data
  || containsSub (pyLower txt) "document".data

/-- Tier 4: scan all links. -/
def tier4Filings (page : FeedPage) (ft : Option (List Char)) : List FilingItem :=
  page.links.filterMap fun lk =>
    match lk.href with
    | none => none
    | some h =>
      if h.isEmpty then none
      else
        let txt := pyStrip lk.text
        if tier4Cond ft txt h then some (.filing txt "Unknown".data (rebase h)) else none

def find_filings_body (page : FeedPage) (ft : Option (List Char)) :
    Except PyExc (List FilingItem) :=
  let entries := collectEntries page
  if entries = [] then
    let t3 := tier3Filings page ft
    if t3 ≠ [] then .ok t3
    else
      let t4 := tier4Filings page ft
      if t4 ≠ [] then .ok t4 else .ok []
  else processEntries entries

/-- Locator `find_filings` after a successful fetch: the whole tier logic runs
inside a `try` whose handler returns the single-element error-marker
list `[{"error": f"Failed to retrieve filings: {str(e)}"}]`. -/
def find_filings (page : FeedPage) (ft : Option (List Char)) : List FilingItem :=
  match find_filings_body page ft with
  | .ok items => items
  | .error e => [.errorMarker ("Failed to retrieve filings: ".data ++ e.message.data)]

/-- A feed response whose XML is malformed (the parser finds no
`entry` tags) but which contains a recoverable
`<entry>...</entry>` block with a title, a date and a link. -/
def tier2FailPage : FeedPage :=
  { rawText := String.data ("<?xml version=\"1.0\" encoding=\"UTF-8\"?><feed>"
      ++ "<entry><title>10-K - Test Company</title><updated>2024-01-15</updated>"
      ++ "<link href=\"https://www.sec.gov/Archives/edgar/data/1/0000000001-index.htm\"/>"
      ++ "</entry>")
    soupEntries := []
    tableRows := []
    links := [] }

set_option maxRecDepth 16384 in
/-- C5: the tier-2 scenario fails on the code.  On a malformed feed
with one recoverable `<entry>` block carrying a link, the claim (and
spec) require at least one `FilingReference`; instead the entry
processing evaluates `.attrs` on the dict returned by
`SimpleEntry.find('link')`, the resulting `AttributeError` is caught
by the outer handler, and `find_filings` returns the single-element
error-marker list — zero filings. -/
theorem find_filings_tier2_bug :
    find_filings tier2FailPage (some "10-K".data)
      = [FilingItem.errorMarker ("Failed to retrieve filings: ".data ++ attrsErrorText.data)]
      ∧ ∀ t d l, FilingItem.filing t d l ∉ find_filings tier2FailPage (some "10-K".data) := by
  constructor
  · decide
  · intro t d l
    have h : find_filings tier2FailPage (some "10-K".data)
        = [FilingItem.errorMarker ("Failed to retrieve filings: ".data ++ attrsErrorText.data)] := by
      decide
    rw [h]
    simp
